import Mathlib

/-!
A shallow embedding of the stock screener's indicator engine
(`technical_analysis_service.py`), signal detector
(`signal_detection_service.py`) and signal data model (`models/signals.py`).

Prices and volumes are modelled as rationals.  A pandas `NaN` entry of a
derived column is modelled as `none` of an `Option ℚ` value; comparisons
against a missing value evaluate to `false` and arithmetic on a missing
value yields a missing value, mirroring the IEEE-754 `NaN` semantics used
by pandas / numpy.

Columns `EMA_12`, `EMA_26` (exponentially weighted means), `Volume_ROC`,
`Price_Change_Pct` and `Price_Volatility` (a rolling standard deviation,
which is irrational-valued) are not modelled: no property below refers to
them, and no code path that the properties exercise reads them.
-/

namespace StockScreener

/-- A cell of a derived column: `some q` models a defined float value,
`none` models pandas `NaN`. -/
abbrev Val := Option ℚ

/-- `x * c` for a possibly-missing `x`; missing values propagate, as for
float `NaN` multiplication. -/
def vmulc (v : Val) (c : ℚ) : Val :=
  match v with
  | some x => some (x * c)
  | none => none

/-- `x > v` where the right side may be missing; any comparison with a
missing value (float `NaN`) is `false`. -/
def qgtV (x : ℚ) (v : Val) : Bool :=
  match v with
  | some y => decide (y < x)
  | none => false

/-- `x ≤ v` where the right side may be missing; `false` on a missing
value. -/
def qleV (x : ℚ) (v : Val) : Bool :=
  match v with
  | some y => decide (x ≤ y)
  | none => false

/-- `a > b` on possibly-missing values; `false` if either is missing. -/
def vgtV (a b : Val) : Bool :=
  match a, b with
  | some x, some y => decide (y < x)
  | _, _ => false

/-- `v > 0` on a possibly-missing value; `false` on a missing value. -/
def vgt0 (v : Val) : Bool :=
  match v with
  | some y => decide (0 < y)
  | none => false

/-- One OHLCV bar of the raw price series (one row of the raw data frame,
columns `Open`, `High`, `Low`, `Close`, `Volume`). -/
structure Bar where
  Open : ℚ
  High : ℚ
  Low : ℚ
  Close : ℚ
  Volume : ℚ
deriving DecidableEq, Repr

/-- Default bar used as the out-of-range default of list lookups. -/
def dBar : Bar := ⟨0, 0, 0, 0, 0⟩

/-- Positional row access into the raw series, `data.iloc[t]`. -/
def barAt (bars : List Bar) (t : Nat) : Bar := bars.getD t dBar

/-- The raw `Close` column. -/
def closeCol (bars : List Bar) : List ℚ := bars.map Bar.Close

/-- The raw `High` column. -/
def highCol (bars : List Bar) : List ℚ := bars.map Bar.High

/-- The raw `Low` column. -/
def lowCol (bars : List Bar) : List ℚ := bars.map Bar.Low

/-- The raw `Volume` column. -/
def volumeCol (bars : List Bar) : List ℚ := bars.map Bar.Volume

/-- The trailing window of width `w` ending at position `t` used by a
pandas `rolling(window=w)` computation: elements `t+1-w .. t`. -/
def winAt (xs : List α) (w t : Nat) : List α := (xs.drop (t + 1 - w)).take w

/-- `xs.rolling(window=w).mean()` evaluated at position `t`: the mean of
the trailing `w` entries, `NaN` while fewer than `w` observations exist. -/
def smaAt (w : Nat) (xs : List ℚ) (t : Nat) : Val :=
  if w ≤ t + 1 then some ((winAt xs w t).sum / w) else none

/-- Maximum of a list of rationals, `none` on the empty list. -/
def listMax? : List ℚ → Option ℚ
  | [] => none
  | x :: xs => some (xs.foldl max x)

/-- Minimum of a list of rationals, `none` on the empty list. -/
def listMin? : List ℚ → Option ℚ
  | [] => none
  | x :: xs => some (xs.foldl min x)

/-- `xs.rolling(window=w).max()` evaluated at position `t`. -/
def rollMaxAt (w : Nat) (xs : List ℚ) (t : Nat) : Val :=
  if w ≤ t + 1 then listMax? (winAt xs w t) else none

/-- `xs.rolling(window=w).min()` evaluated at position `t`. -/
def rollMinAt (w : Nat) (xs : List ℚ) (t : Nat) : Val :=
  if w ≤ t + 1 then listMin? (winAt xs w t) else none

/-- Sum of the defined entries of a list of cells. -/
def vsum (l : List Val) : ℚ := (l.map (fun v => v.getD 0)).sum

/-- Rolling mean of width `w` over a column that may itself contain `NaN`
cells: with `min_periods = w` (the pandas default) the result at `t` is
defined only when the trailing `w` cells all are. -/
def rollMeanOptAt (w : Nat) (xs : List Val) (t : Nat) : Val :=
  if w ≤ t + 1 then
    if (winAt xs w t).all Option.isSome then some (vsum (winAt xs w t) / w)
    else none
  else none

/-- `SMA_20` column of `_calculate_moving_averages`:
`data["Close"].rolling(window=20).mean()`. -/
def sma_20_col (bars : List Bar) : List Val :=
  (List.range bars.length).map (smaAt 20 (closeCol bars))

/-- `SMA_50` column of `_calculate_moving_averages`:
`data["Close"].rolling(window=50).mean()`. -/
def sma_50_col (bars : List Bar) : List Val :=
  (List.range bars.length).map (smaAt 50 (closeCol bars))

/-- `Volume_MA_20` column of `_calculate_volume_indicators`:
`data["Volume"].rolling(window=20).mean()`. -/
def volume_ma_20_col (bars : List Bar) : List Val :=
  (List.range bars.length).map (smaAt 20 (volumeCol bars))

/-- The running on-balance-volume value after row `t`, the translation of
the loop of `_calculate_obv`: `obv[0] = 0`, and each later row adds the
row's volume when its close rose, subtracts it when its close fell, and
keeps the previous value otherwise. -/
def obvAt (bars : List Bar) : Nat → ℚ
  | 0 => 0
  | t + 1 =>
    if (barAt bars (t + 1)).Close > (barAt bars t).Close then
      obvAt bars t + (barAt bars (t + 1)).Volume
    else if (barAt bars (t + 1)).Close < (barAt bars t).Close then
      obvAt bars t - (barAt bars (t + 1)).Volume
    else
      obvAt bars t

/-- `OBV` column of `_calculate_volume_indicators`. -/
def obv_col (bars : List Bar) : List ℚ :=
  (List.range bars.length).map (obvAt bars)

/-- The three-way maximum `max(high−low, |high−prevClose|, |low−prevClose|)`
computed by `_calculate_atr` for a row with a previous close. -/
def tr_formula (bars : List Bar) (t : Nat) : ℚ :=
  max ((barAt bars t).High - (barAt bars t).Low)
    (max |(barAt bars t).High - (barAt bars (t - 1)).Close|
      |(barAt bars t).Low - (barAt bars (t - 1)).Close|)

/-- The true-range cell of `_calculate_atr` at row `t`.  At row `0`,
`data["Close"].shift(1)` is `NaN`, and `np.maximum` propagates `NaN`, so
the cell is missing; from row `1` on it is `tr_formula`. -/
def trAt (bars : List Bar) (t : Nat) : Val :=
  if t = 0 then none else some (tr_formula bars t)

/-- The `true_range` series built by `_calculate_atr`. -/
def true_range_col (bars : List Bar) : List Val :=
  (List.range bars.length).map (trAt bars)

/-- `ATR` column of `_calculate_volatility`:
`pd.Series(true_range).rolling(window=14).mean()`. -/
def atr_col (bars : List Bar) : List Val :=
  (List.range bars.length).map (rollMeanOptAt 14 (true_range_col bars))

/-- `Resistance` column of `_calculate_support_resistance`:
`data["High"].rolling(window=20).max()`. -/
def resistance_col (bars : List Bar) : List Val :=
  (List.range bars.length).map (rollMaxAt 20 (highCol bars))

/-- `Support` column of `_calculate_support_resistance`:
`data["Low"].rolling(window=20).min()`. -/
def support_col (bars : List Bar) : List Val :=
  (List.range bars.length).map (rollMinAt 20 (lowCol bars))

/-- `Pivot` column of `_calculate_support_resistance`:
`(data["High"] + data["Low"] + data["Close"]) / 3`. -/
def pivot_col (bars : List Bar) : List Val :=
  bars.map (fun b => some ((b.High + b.Low + b.Close) / 3))

/-- `Price_vs_SMA20` / `Price_vs_SMA50` column of
`_calculate_price_changes`: `(data["Close"] − data[sma]) / data[sma]`,
missing where the moving average is. -/
def price_vs_sma_col (close : List ℚ) (sma : List Val) : List Val :=
  List.zipWith
    (fun c s =>
      match s with
      | some v => some ((c - v) / v)
      | none => none)
    close sma

/-- Name of a derived column added in place by the indicator engine. -/
inductive ColName where
  | SMA_20
  | SMA_50
  | Volume_MA_20
  | OBV
  | ATR
  | Resistance
  | Support
  | Pivot
  | Price_vs_SMA20
  | Price_vs_SMA50
deriving DecidableEq, Repr, BEq

/-- A pandas data frame as the engine sees it: the raw OHLCV columns plus
the derived columns assigned in place, in assignment order. -/
structure DataFrame where
  bars : List Bar
  derived : List (ColName × List Val)
deriving DecidableEq, Repr

/-- Column read `df[name]` of a derived column; `[]` if absent. -/
def colLookup (df : DataFrame) (name : ColName) : List Val :=
  ((df.derived.find? (fun p => p.1 == name)).map Prod.snd).getD []

/-- `_calculate_moving_averages`: assigns `SMA_20` and `SMA_50` (the
informational `EMA_12`/`EMA_26` assignments are not modelled). -/
def calculate_moving_averages (df : DataFrame) : DataFrame :=
  { df with
    derived :=
      df.derived ++
        [(ColName.SMA_20, sma_20_col df.bars), (ColName.SMA_50, sma_50_col df.bars)] }

/-- `_calculate_volume_indicators`: assigns `Volume_MA_20` and `OBV` (the
informational `Volume_ROC` assignment is not modelled). -/
def calculate_volume_indicators (df : DataFrame) : DataFrame :=
  { df with
    derived :=
      df.derived ++
        [(ColName.Volume_MA_20, volume_ma_20_col df.bars),
          (ColName.OBV, (obv_col df.bars).map some)] }

/-- `_calculate_volatility`: assigns `ATR` (the irrational-valued
`Price_Volatility` assignment is not modelled). -/
def calculate_volatility (df : DataFrame) : DataFrame :=
  { df with derived := df.derived ++ [(ColName.ATR, atr_col df.bars)] }

/-- `_calculate_support_resistance`: assigns `Resistance`, `Support` and
`Pivot`. -/
def calculate_support_resistance (df : DataFrame) : DataFrame :=
  { df with
    derived :=
      df.derived ++
        [(ColName.Resistance, resistance_col df.bars),
          (ColName.Support, support_col df.bars),
          (ColName.Pivot, pivot_col df.bars)] }

/-- `_calculate_price_changes`: assigns `Price_vs_SMA20` and
`Price_vs_SMA50`, reading back the `SMA_20`/`SMA_50` columns assigned
earlier in the pipeline (the informational `Price_Change_Pct` assignment
is not modelled). -/
def calculate_price_changes (df : DataFrame) : DataFrame :=
  { df with
    derived :=
      df.derived ++
        [(ColName.Price_vs_SMA20,
            price_vs_sma_col (closeCol df.bars) (colLookup df ColName.SMA_20)),
          (ColName.Price_vs_SMA50,
            price_vs_sma_col (closeCol df.bars) (colLookup df ColName.SMA_50))] }

/-- The value computed by `calculate_all_indicators` for a given input
frame value: the five helper passes applied in source order. -/
def calculate_all_indicators (df : DataFrame) : DataFrame :=
  calculate_price_changes
    (calculate_support_resistance
      (calculate_volatility (calculate_volume_indicators (calculate_moving_averages df))))

/-! ### The in-place pipeline of `calculate_all_indicators`

The Python method receives a reference to the caller's frame, makes a
copy (`data.copy()`, a fresh object with equal contents), and lets the
five helpers assign columns in place on the copy.  Frames live in a heap
of frame objects addressed by position; `copy` allocates. -/

/-- A heap of data-frame objects; a reference is an index into it. -/
structure Heap where
  frames : List DataFrame
deriving DecidableEq, Repr

/-- Dereference. -/
def Heap.read (h : Heap) (r : Nat) : DataFrame := h.frames.getD r ⟨[], []⟩

/-- In-place update of the object behind a reference. -/
def Heap.write (h : Heap) (r : Nat) (df : DataFrame) : Heap :=
  ⟨h.frames.set r df⟩

/-- Allocation of a fresh object; returns the new heap and reference. -/
def Heap.alloc (h : Heap) (df : DataFrame) : Heap × Nat :=
  (⟨h.frames ++ [df]⟩, h.frames.length)

/-- `data.copy()`: a fresh object with the same contents (pandas `copy`
is deep by default; allocation is performed by the caller). -/
def DataFrame.copy (df : DataFrame) : DataFrame := df

/-- One in-place helper pass: read the object behind `r`, transform it,
write the result back to the same object. -/
def applyInPlace (hp : Heap) (r : Nat) (f : DataFrame → DataFrame) : Heap :=
  hp.write r (f (hp.read r))

/-- `calculate_all_indicators` at the heap level: copy the argument into
a fresh object, then run the five in-place helper passes on the copy,
returning a reference to it. -/
def calculate_all_indicators_heap (h : Heap) (r : Nat) : Heap × Nat :=
  let a := h.alloc ((h.read r).copy)
  let h1 := a.1
  let r1 := a.2
  let h2 := applyInPlace h1 r1 calculate_moving_averages
  let h3 := applyInPlace h2 r1 calculate_volume_indicators
  let h4 := applyInPlace h3 r1 calculate_volatility
  let h5 := applyInPlace h4 r1 calculate_support_resistance
  let h6 := applyInPlace h5 r1 calculate_price_changes
  (h6, r1)

/-! ### Signal data model, from `models/signals.py` -/

/-- `SignalType`. -/
inductive SignalType where
  | RESISTANCE_BREAKOUT
  | MA_BREAKOUT
  | VOLUME_SPIKE
deriving DecidableEq, Repr

/-- `BreakoutSignal`. -/
structure BreakoutSignal where
  signal : Bool
  signal_type : Option SignalType
  strength : ℚ
deriving DecidableEq, Repr

/-- `BreakoutSignal.no_signal()`. -/
def BreakoutSignal.no_signal : BreakoutSignal := ⟨false, none, 0⟩

/-- `BreakoutSignal.resistance_breakout(strength)`. -/
def BreakoutSignal.resistance_breakout (strength : ℚ) : BreakoutSignal :=
  ⟨true, some SignalType.RESISTANCE_BREAKOUT, strength⟩

/-- `BreakoutSignal.ma_breakout(strength)`. -/
def BreakoutSignal.ma_breakout (strength : ℚ) : BreakoutSignal :=
  ⟨true, some SignalType.MA_BREAKOUT, strength⟩

/-- `VolumeSignal`. -/
structure VolumeSignal where
  signal : Bool
  volume_ratio : ℚ
deriving DecidableEq, Repr

/-- `VolumeSignal.no_signal(volume_ratio)` (the Python default of the
argument is `0.0`; call sites below pass it explicitly). -/
def VolumeSignal.no_signal (volume_ratio : ℚ) : VolumeSignal :=
  ⟨false, volume_ratio⟩

/-- `VolumeSignal.volume_spike(volume_ratio)`. -/
def VolumeSignal.volume_spike (volume_ratio : ℚ) : VolumeSignal :=
  ⟨true, volume_ratio⟩

/-- `CombinedSignals`. -/
structure CombinedSignals where
  breakout : BreakoutSignal
  volume : VolumeSignal
deriving DecidableEq, Repr

/-! ### Signal detector, from `signal_detection_service.py`

The detector reads the columns `Close`, `Volume`, `SMA_20`, `SMA_50`,
`Volume_MA_20` and `Resistance` of rows addressed as `data.iloc[-i]`;
a frame is modelled as the list of its rows restricted to those
columns. -/

/-- One row of an indicator frame, restricted to the columns the
detector reads.  Raw columns are plain rationals; derived columns may be
missing (`NaN`). -/
structure Row where
  Close : ℚ
  Volume : ℚ
  SMA_20 : Val
  SMA_50 : Val
  Volume_MA_20 : Val
  Resistance : Val
deriving DecidableEq, Repr

/-- Default row for out-of-range lookups. -/
def dRow : Row := ⟨0, 0, none, none, none, none⟩

/-- `data.iloc[-i]`: the `i`-th row from the end. -/
def ilocNeg (data : List Row) (i : Nat) : Row :=
  data.getD (data.length - i) dRow

/-- The detector's row view of an engine-produced frame. -/
def frame_rows (df : DataFrame) : List Row :=
  (List.range df.bars.length).map (fun t =>
    { Close := (barAt df.bars t).Close
      Volume := (barAt df.bars t).Volume
      SMA_20 := (colLookup df ColName.SMA_20).getD t none
      SMA_50 := (colLookup df ColName.SMA_50).getD t none
      Volume_MA_20 := (colLookup df ColName.Volume_MA_20).getD t none
      Resistance := (colLookup df ColName.Resistance).getD t none })

/-- `SignalDetectionService` configuration (constructor defaults:
`volume_spike_threshold = 2.0`, `breakout_threshold = 0.02`). -/
structure SignalDetectionService where
  volume_spike_threshold : ℚ
  breakout_threshold : ℚ
deriving DecidableEq, Repr

/-- The default-constructed service. -/
def defaultService : SignalDetectionService := ⟨2, 2 / 100⟩

/-- `max(0, (close − level) / level)` for a possibly-missing level, as
computed when a breakout fires (Python's `max(0, x)` returns `0` when
`x` is `NaN`). -/
def strengthFrom (close : ℚ) (level : Val) : ℚ :=
  match level with
  | some r => max 0 ((close - r) / r)
  | none => 0

/-- `_check_resistance_breakout_with_data`. -/
def check_resistance_breakout_with_data (svc : SignalDetectionService)
    (data : List Row) : Bool × ℚ :=
  if data.length < 2 then (false, 0)
  else
    let latest := ilocNeg data 1
    let current_above_resistance :=
      qgtV latest.Close (vmulc latest.Resistance (1 - svc.breakout_threshold))
    if current_above_resistance then
      let lookback_days := min 5 data.length
      let volume_confirmation :=
        (List.range lookback_days).any (fun j =>
          let day := ilocNeg data (j + 1)
          qgtV day.Volume (vmulc day.Volume_MA_20 (12 / 10)))
      let recent_breakout :=
        (List.range (min 5 data.length - 1)).any (fun j =>
          let i := j + 1
          if i < data.length - 1 then
            let current_day := ilocNeg data i
            let prev_day := ilocNeg data (i + 1)
            qgtV current_day.Close
                (vmulc current_day.Resistance (1 - svc.breakout_threshold)) &&
              qleV prev_day.Close prev_day.Resistance
          else false)
      if recent_breakout && volume_confirmation then
        (true, strengthFrom latest.Close latest.Resistance)
      else (false, 0)
    else (false, 0)

/-- `_check_ma_breakout`. -/
def check_ma_breakout (_svc : SignalDetectionService) (latest previous : Row) :
    Bool × ℚ :=
  let price_above_sma := qgtV latest.Close latest.SMA_20
  let previous_below_sma := qleV previous.Close previous.SMA_20
  let uptrend_confirmation := vgtV latest.SMA_20 latest.SMA_50
  if price_above_sma && previous_below_sma && uptrend_confirmation then
    (true, strengthFrom latest.Close latest.SMA_20)
  else (false, 0)

/-- `detect_breakout_signals`. -/
def detect_breakout_signals (svc : SignalDetectionService) (data : List Row) :
    BreakoutSignal :=
  if data.length < 21 then BreakoutSignal.no_signal
  else
    let latest := ilocNeg data 1
    let previous := ilocNeg data 2
    let rb := check_resistance_breakout_with_data svc data
    if rb.1 then BreakoutSignal.resistance_breakout rb.2
    else
      let mb := check_ma_breakout svc latest previous
      if mb.1 then BreakoutSignal.ma_breakout mb.2
      else BreakoutSignal.no_signal

/-- The per-day volume ratio of `detect_volume_signals`:
`Volume / Volume_MA_20` when the average is defined and positive, else
`0`. -/
def ratioOfDay (day : Row) : ℚ :=
  if vgt0 day.Volume_MA_20 then day.Volume / day.Volume_MA_20.getD 0 else 0

/-- `detect_volume_signals`. -/
def detect_volume_signals (svc : SignalDetectionService) (data : List Row) :
    VolumeSignal :=
  if data.length < 21 then VolumeSignal.no_signal 0
  else
    let lookback_days := min 5 data.length
    let ratios :=
      (List.range lookback_days).map (fun j => ratioOfDay (ilocNeg data (j + 1)))
    let max_volume_ratio := ratios.foldl max 0
    let spike_detected :=
      ratios.any (fun r => decide (svc.volume_spike_threshold ≤ r))
    if spike_detected then VolumeSignal.volume_spike max_volume_ratio
    else VolumeSignal.no_signal (ratioOfDay (ilocNeg data 1))

/-- `detect_all_signals`. -/
def detect_all_signals (svc : SignalDetectionService) (data : List Row) :
    CombinedSignals :=
  ⟨detect_breakout_signals svc data, detect_volume_signals svc data⟩

/-! ### Shared helper lemmas -/

theorem getD_map_range {α : Type} (f : Nat → α) (d : α) {t n : Nat} (h : t < n) :
    ((List.range n).map f).getD t d = f t := by
  have hl : t < ((List.range n).map f).length := by simpa using h
  rw [List.getD_eq_getElem _ _ hl]
  simp

theorem drop_take_eq_map_range {α : Type} (l : List α) (d : α) (a : Nat) :
    ∀ w : Nat, a + w ≤ l.length →
      (l.drop a).take w = (List.range w).map (fun i => l.getD (a + i) d) := by
  intro w
  induction w with
  | zero => intro _; simp
  | succ w ih =>
    intro h
    have hw : a + w < l.length := by omega
    rw [List.range_succ, List.map_append, ← ih (by omega), List.take_succ]
    have hd : (l.drop a)[w]? = some (l.getD (a + w) d) := by
      rw [List.getElem?_drop, List.getElem?_eq_getElem hw, List.getD_eq_getElem _ _ hw]
    rw [hd]
    simp

theorem winAt_eq_map {α : Type} (l : List α) (d : α) {w t : Nat} (h1 : w ≤ t + 1)
    (h2 : t < l.length) :
    winAt l w t = (List.range w).map (fun i => l.getD (t + 1 - w + i) d) := by
  unfold winAt
  exact drop_take_eq_map_range l d (t + 1 - w) w (by omega)

theorem any_range_iff (n : Nat) (f : Nat → Bool) :
    (List.range n).any f = true ↔ ∃ j, j < n ∧ f j = true := by
  rw [List.any_eq_true]
  constructor
  · rintro ⟨j, hj, hf⟩
    exact ⟨j, List.mem_range.mp hj, hf⟩
  · rintro ⟨j, hj, hf⟩
    exact ⟨j, List.mem_range.mpr hj, hf⟩

theorem le_foldl_max (xs : List ℚ) : ∀ a : ℚ, a ≤ xs.foldl max a := by
  induction xs with
  | nil => intro a; simp
  | cons x xs ih =>
    intro a
    calc a ≤ max a x := le_max_left a x
    _ ≤ xs.foldl max (max a x) := ih (max a x)
    _ = (x :: xs).foldl max a := rfl

theorem mem_le_foldl_max {xs : List ℚ} {x : ℚ} (hx : x ∈ xs) :
    ∀ a : ℚ, x ≤ xs.foldl max a := by
  induction xs with
  | nil => cases hx
  | cons y ys ih =>
    intro a
    rcases List.mem_cons.mp hx with h | h
    · subst h
      calc x ≤ max a x := le_max_right a x
      _ ≤ ys.foldl max (max a x) := le_foldl_max ys (max a x)
    · exact ih h (max a y)

theorem foldl_max_mem (xs : List ℚ) : ∀ a : ℚ, xs.foldl max a = a ∨ xs.foldl max a ∈ xs := by
  induction xs with
  | nil => intro a; left; rfl
  | cons x xs ih =>
    intro a
    rcases ih (max a x) with h | h
    · rcases max_choice a x with hm | hm
      · left
        show xs.foldl max (max a x) = a
        rw [h, hm]
      · right
        apply List.mem_cons.mpr
        left
        show xs.foldl max (max a x) = x
        rw [h, hm]
    · right
      exact List.mem_cons.mpr (Or.inr h)

theorem mem_le_listMax? {xs : List ℚ} {x m : ℚ} (hx : x ∈ xs)
    (hm : listMax? xs = some m) : x ≤ m := by
  cases xs with
  | nil => cases hx
  | cons y ys =>
    have hm' : ys.foldl max y = m := by
      simpa [listMax?] using hm
    rcases List.mem_cons.mp hx with h | h
    · rw [← hm', h]
      exact le_foldl_max ys y
    · rw [← hm']
      exact mem_le_foldl_max h y

theorem le_foldl_min (xs : List ℚ) : ∀ a : ℚ, xs.foldl min a ≤ a := by
  induction xs with
  | nil => intro a; simp
  | cons x xs ih =>
    intro a
    calc (x :: xs).foldl min a = xs.foldl min (min a x) := rfl
    _ ≤ min a x := ih (min a x)
    _ ≤ a := min_le_left a x

theorem foldl_min_le_mem {xs : List ℚ} {x : ℚ} (hx : x ∈ xs) :
    ∀ a : ℚ, xs.foldl min a ≤ x := by
  induction xs with
  | nil => cases hx
  | cons y ys ih =>
    intro a
    rcases List.mem_cons.mp hx with h | h
    · subst h
      calc ys.foldl min (min a x) ≤ min a x := le_foldl_min ys (min a x)
      _ ≤ x := min_le_right a x
    · exact ih h (min a y)

theorem listMin?_le_mem {xs : List ℚ} {x m : ℚ} (hx : x ∈ xs)
    (hm : listMin? xs = some m) : m ≤ x := by
  cases xs with
  | nil => cases hx
  | cons y ys =>
    have hm' : ys.foldl min y = m := by
      simpa [listMin?] using hm
    rcases List.mem_cons.mp hx with h | h
    · rw [← hm', h]
      exact le_foldl_min ys y
    · rw [← hm']
      exact foldl_min_le_mem h y

theorem getD_map_field {α β : Type} (f : α → β) (l : List α) (dβ : β) (dα : α)
    {n : Nat} (h : n < l.length) : (l.map f).getD n dβ = f (l.getD n dα) := by
  rw [List.getD_eq_getElem _ _ (by simpa using h), List.getElem_map,
    List.getD_eq_getElem _ _ h]

/-! ### Concrete example data used by witnesses and counterexamples -/

/-- Two bars whose closes rise from 10 to 12. -/
def exObvBars : List Bar := [⟨1, 1, 1, 10, 5⟩, ⟨1, 1, 1, 12, 7⟩]

/-- Twenty identical bars with close 2. -/
def exSmaBars : List Bar := List.replicate 20 ⟨2, 2, 2, 2, 2⟩

/-- Twenty identical bars with high 10 and low 5. -/
def exSRBars : List Bar := List.replicate 20 ⟨7, 10, 5, 7, 1⟩

/-! ### Claim theorems -/

/-- C2: for every input frame with fewer than 21 rows, `detect_all_signals`
returns `CombinedSignals{NoSignal, NoSignal(volume_ratio = 0)}` regardless
of the rows' contents; being a total function of the frame, it raises no
error. -/
theorem detect_all_signals_insufficient_data (svc : SignalDetectionService)
    (data : List Row) (h : data.length < 21) :
    detect_all_signals svc data =
      ⟨BreakoutSignal.no_signal, VolumeSignal.no_signal 0⟩ := by
  unfold detect_all_signals detect_breakout_signals detect_volume_signals
  rw [if_pos h, if_pos h]

/-- Witness for C2 at a concrete 20-row frame. -/
theorem detect_all_signals_insufficient_data_witness :
    (List.replicate 20 dRow).length < 21 ∧
      detect_all_signals defaultService (List.replicate 20 dRow) =
        ⟨BreakoutSignal.no_signal, VolumeSignal.no_signal 0⟩ :=
  ⟨by decide,
    detect_all_signals_insufficient_data defaultService (List.replicate 20 dRow)
      (by decide)⟩

/-- C6: the `OBV` column produced by the indicator engine satisfies
`obv[0] = 0`, and for every `t ≥ 1` the step `obv[t] − obv[t−1]` is
`volume[t]` when `close[t] > close[t−1]`, `−volume[t]` when
`close[t] < close[t−1]`, and `0` when the closes are equal. -/
theorem obv_column_step (bars : List Bar) (t : Nat) (h : t + 1 < bars.length) :
    (obv_col bars).getD 0 0 = 0 ∧
      (obv_col bars).getD (t + 1) 0 - (obv_col bars).getD t 0 =
        (if (barAt bars (t + 1)).Close > (barAt bars t).Close then
            (barAt bars (t + 1)).Volume
          else if (barAt bars (t + 1)).Close < (barAt bars t).Close then
            -(barAt bars (t + 1)).Volume
          else 0) := by
  unfold obv_col
  rw [getD_map_range _ _ (show 0 < bars.length by omega),
    getD_map_range _ _ (show t + 1 < bars.length from h),
    getD_map_range _ _ (show t < bars.length by omega)]
  refine ⟨rfl, ?_⟩
  show obvAt bars (t + 1) - obvAt bars t = _
  simp only [obvAt]
  by_cases h1 : (barAt bars (t + 1)).Close > (barAt bars t).Close
  · rw [if_pos h1, if_pos h1]; ring
  · rw [if_neg h1, if_neg h1]
    by_cases h2 : (barAt bars (t + 1)).Close < (barAt bars t).Close
    · rw [if_pos h2, if_pos h2]; ring
    · rw [if_neg h2, if_neg h2]; ring

/-- Witness for C6 at a concrete two-bar series with a rising close. -/
theorem obv_column_step_witness :
    (obv_col exObvBars).getD 0 0 = 0 ∧
      (obv_col exObvBars).getD (0 + 1) 0 - (obv_col exObvBars).getD 0 0 = 7 := by
  have h := obv_column_step exObvBars 0 (by decide)
  refine ⟨h.1, ?_⟩
  rw [h.2]
  decide

/-- C7: `sma20[t]` is defined iff `t ≥ 19` (0-indexed), and when defined
equals the arithmetic mean of `close[t−19 .. t]`. -/
theorem sma20_window_invariant (bars : List Bar) (t : Nat) (h : t < bars.length) :
    (((sma_20_col bars).getD t none).isSome = true ↔ 19 ≤ t) ∧
      (19 ≤ t →
        (sma_20_col bars).getD t none =
          some
            (((List.range 20).map (fun i => (closeCol bars).getD (t - 19 + i) 0)).sum /
              20)) := by
  have hlen : (closeCol bars).length = bars.length := by simp [closeCol]
  unfold sma_20_col
  rw [getD_map_range _ _ h]
  unfold smaAt
  constructor
  · by_cases h20 : 20 ≤ t + 1
    · rw [if_pos h20]
      simp only [Option.isSome_some, true_iff]
      omega
    · rw [if_neg h20]
      simp only [Option.isSome_none, Bool.false_eq_true, false_iff]
      omega
  · intro h19
    have h20 : 20 ≤ t + 1 := by omega
    rw [if_pos h20,
      winAt_eq_map (closeCol bars) 0 h20 (show t < (closeCol bars).length by omega)]
    have ha : t + 1 - 20 = t - 19 := by omega
    rw [ha]
    norm_num

/-- Witness for C7 at a concrete 20-bar series, `t = 19`. -/
theorem sma20_window_invariant_witness :
    (sma_20_col exSmaBars).getD 19 none =
      some
        (((List.range 20).map (fun i => (closeCol exSmaBars).getD (19 - 19 + i) 0)).sum /
          20) :=
  (sma20_window_invariant exSmaBars 19 (by decide)).2 (by decide)

/-- C8: whenever both the `Resistance` and `Support` columns are defined at
an index, resistance is at least support, provided every bar has
`high ≥ low`. -/
theorem resistance_ge_support (bars : List Bar)
    (hwf : ∀ b ∈ bars, b.Low ≤ b.High) (t : Nat) (r s : ℚ)
    (hr : (resistance_col bars).getD t none = some r)
    (hs : (support_col bars).getD t none = some s) : s ≤ r := by
  have hlenH : (highCol bars).length = bars.length := by simp [highCol]
  have hlenL : (lowCol bars).length = bars.length := by simp [lowCol]
  have ht : t < bars.length := by
    by_contra hc
    push_neg at hc
    rw [List.getD_eq_default _ _ (by simpa [resistance_col] using hc)] at hr
    cases hr
  unfold resistance_col at hr
  unfold support_col at hs
  rw [getD_map_range _ _ ht] at hr
  rw [getD_map_range _ _ ht] at hs
  unfold rollMaxAt at hr
  unfold rollMinAt at hs
  by_cases h20 : 20 ≤ t + 1
  · rw [if_pos h20] at hr hs
    have ha : t + 1 - 20 < bars.length := by omega
    have hmemH : (highCol bars).getD (t + 1 - 20) 0 ∈ winAt (highCol bars) 20 t := by
      rw [winAt_eq_map (highCol bars) 0 h20 (by omega)]
      exact List.mem_map.mpr ⟨0, List.mem_range.mpr (by omega), by simp⟩
    have hmemL : (lowCol bars).getD (t + 1 - 20) 0 ∈ winAt (lowCol bars) 20 t := by
      rw [winAt_eq_map (lowCol bars) 0 h20 (by omega)]
      exact List.mem_map.mpr ⟨0, List.mem_range.mpr (by omega), by simp⟩
    have h1 : (highCol bars).getD (t + 1 - 20) 0 ≤ r := mem_le_listMax? hmemH hr
    have h2 : s ≤ (lowCol bars).getD (t + 1 - 20) 0 := listMin?_le_mem hmemL hs
    have hH : (highCol bars).getD (t + 1 - 20) 0 = (bars.getD (t + 1 - 20) dBar).High :=
      getD_map_field Bar.High bars 0 dBar ha
    have hL : (lowCol bars).getD (t + 1 - 20) 0 = (bars.getD (t + 1 - 20) dBar).Low :=
      getD_map_field Bar.Low bars 0 dBar ha
    have hbar : bars.getD (t + 1 - 20) dBar ∈ bars := by
      rw [List.getD_eq_getElem _ _ ha]
      exact List.getElem_mem ha
    have h3 := hwf _ hbar
    rw [hH] at h1
    rw [hL] at h2
    linarith
  · rw [if_neg h20] at hr
    cases hr

set_option maxRecDepth 10000 in
/-- Witness for C8 at a concrete 20-bar series, `t = 19`. -/
theorem resistance_ge_support_witness :
    (resistance_col exSRBars).getD 19 none = some 10 ∧
      (support_col exSRBars).getD 19 none = some 5 ∧ (5 : ℚ) ≤ 10 :=
  ⟨by decide, by decide,
    resistance_ge_support exSRBars (by decide) 19 10 5 (by decide) (by decide)⟩

/-- Modelled from the spec's words, for comparison with the code: a total
true range whose first bar "degrades to high − low". -/
def spec_true_range (bars : List Bar) (t : Nat) : ℚ :=
  if t = 0 then (barAt bars 0).High - (barAt bars 0).Low else tr_formula bars t

/-- Modelled from the spec's words, for comparison with the code: the ATR
column as the 14-bar rolling mean of the total `spec_true_range`,
"undefined while fewer than 14 observations exist". -/
def spec_atr_col (bars : List Bar) : List Val :=
  (List.range bars.length).map
    (smaAt 14 ((List.range bars.length).map (spec_true_range bars)))

/-- Fourteen identical bars with high 10, low 5, close 7. -/
def atrBars14 : List Bar := List.replicate 14 ⟨7, 10, 5, 7, 1⟩

/-- Fifteen identical bars with high 10, low 5, close 7. -/
def atrBars15 : List Bar := List.replicate 15 ⟨7, 10, 5, 7, 1⟩

set_option maxRecDepth 20000 in
/-- Counterexample to C5 as stated: on a 14-bar series the spec's reading
(first true range = high − low, ATR defined once 14 observations exist)
yields a defined ATR at index 13, but the code's ATR column is still
undefined there, because the first true-range cell is `NaN` (the
`Close.shift(1)` hole propagates through `np.maximum`) and the rolling
mean needs 14 non-`NaN` cells. -/
theorem atr_first_bar_counterexample :
    ((spec_atr_col atrBars14).getD 13 none).isSome = true ∧
      (atr_col atrBars14).getD 13 none = none := by decide

/-- C5 as amended: the true-range cell is undefined at the first bar (not
`high − low`) and equals `max(high−low, |high−prevClose|, |low−prevClose|)`
from index 1 on; consequently the ATR column is defined exactly from index
14 on, where it equals the mean of the trailing 14 true-range values. -/
theorem atr_characterization (bars : List Bar) (t : Nat) (h : t < bars.length) :
    (true_range_col bars).getD 0 none = none ∧
      (1 ≤ t →
        (true_range_col bars).getD t none =
          some
            (max ((barAt bars t).High - (barAt bars t).Low)
              (max |(barAt bars t).High - (barAt bars (t - 1)).Close|
                |(barAt bars t).Low - (barAt bars (t - 1)).Close|))) ∧
      (((atr_col bars).getD t none).isSome = true ↔ 14 ≤ t) ∧
      (14 ≤ t →
        (atr_col bars).getD t none =
          some
            (((List.range 14).map (fun i => tr_formula bars (t - 13 + i))).sum / 14)) := by
  have h0 : 0 < bars.length := by omega
  have hlenTR : (true_range_col bars).length = bars.length := by
    simp [true_range_col]
  have hval : (atr_col bars).getD t none =
      if 14 ≤ t then
        some (((List.range 14).map (fun i => tr_formula bars (t - 13 + i))).sum / 14)
      else none := by
    unfold atr_col
    rw [getD_map_range _ _ h]
    unfold rollMeanOptAt
    by_cases h14a : 14 ≤ t + 1
    · rw [if_pos h14a,
        winAt_eq_map (true_range_col bars) none h14a (by omega : t < (true_range_col bars).length)]
      have hgd : ∀ i ∈ List.range 14,
          (true_range_col bars).getD (t + 1 - 14 + i) none = trAt bars (t + 1 - 14 + i) := by
        intro i hi
        have hi' : i < 14 := List.mem_range.mp hi
        unfold true_range_col
        exact getD_map_range _ _ (by omega)
      rw [List.map_congr_left hgd]
      by_cases h14 : 14 ≤ t
      · have ha : t + 1 - 14 = t - 13 := by omega
        rw [ha]
        have hall :
            (((List.range 14).map fun i => trAt bars (t - 13 + i)).all Option.isSome) = true := by
          rw [List.all_eq_true]
          intro x hx
          rcases List.mem_map.mp hx with ⟨i, hi, hxi⟩
          have hne : ¬ (t - 13 + i = 0) := by
            have := List.mem_range.mp hi
            omega
          rw [← hxi]
          unfold trAt
          rw [if_neg hne]
          rfl
        rw [if_pos hall, if_pos h14]
        have hsum : vsum ((List.range 14).map fun i => trAt bars (t - 13 + i)) =
            ((List.range 14).map (fun i => tr_formula bars (t - 13 + i))).sum := by
          unfold vsum
          rw [List.map_map]
          apply congrArg List.sum
          apply List.map_congr_left
          intro i hi
          have hne : ¬ (t - 13 + i = 0) := by
            have := List.mem_range.mp hi
            omega
          show Option.getD (trAt bars (t - 13 + i)) 0 = tr_formula bars (t - 13 + i)
          unfold trAt
          rw [if_neg hne]
          rfl
        rw [hsum]
        norm_num
      · have hc : ¬ (((List.range 14).map fun i => trAt bars (t + 1 - 14 + i)).all Option.isSome = true) := by
          intro hc
          rw [List.all_eq_true] at hc
          have h00 := hc (trAt bars (t + 1 - 14 + 0))
            (List.mem_map.mpr ⟨0, List.mem_range.mpr (by omega), rfl⟩)
          have hz : t + 1 - 14 + 0 = 0 := by omega
          rw [hz] at h00
          simp [trAt] at h00
        rw [if_neg hc, if_neg h14]
    · rw [if_neg h14a, if_neg (by omega : ¬ 14 ≤ t)]
  refine ⟨?_, ?_, ?_, ?_⟩
  · unfold true_range_col
    rw [getD_map_range _ _ h0]
    rfl
  · intro h1
    unfold true_range_col
    rw [getD_map_range _ _ h]
    unfold trAt
    rw [if_neg (by omega : ¬ t = 0)]
    rfl
  · rw [hval]
    by_cases h14 : 14 ≤ t
    · rw [if_pos h14]
      simp [h14]
    · rw [if_neg h14]
      simp [h14]
  · intro h14
    rw [hval, if_pos h14]

set_option maxRecDepth 20000 in
/-- Witness for the amended C5 at a concrete 15-bar series, `t = 14`. -/
theorem atr_characterization_witness :
    (atr_col atrBars15).getD 14 none =
      some
        (((List.range 14).map (fun i => tr_formula atrBars15 (14 - 13 + i))).sum / 14) :=
  (atr_characterization atrBars15 14 (by decide)).2.2.2 (by decide)

theorem applyInPlace_read_ne (hp : Heap) {r1 r2 : Nat} (f : DataFrame → DataFrame)
    (hne : r1 ≠ r2) : (applyInPlace hp r1 f).read r2 = hp.read r2 := by
  unfold applyInPlace Heap.write Heap.read
  rw [List.getD_eq_getElem?_getD, List.getD_eq_getElem?_getD,
    List.getElem?_set_ne hne]
  exact (List.getD_eq_getElem?_getD _ _ _).symm

theorem applyInPlace_read_self (hp : Heap) {r1 : Nat} (f : DataFrame → DataFrame)
    (hlt : r1 < hp.frames.length) :
    (applyInPlace hp r1 f).read r1 = f (hp.read r1) := by
  unfold applyInPlace Heap.write Heap.read
  rw [List.getD_eq_getElem?_getD, List.getElem?_set_self hlt]
  rfl

theorem applyInPlace_length (hp : Heap) (r1 : Nat) (f : DataFrame → DataFrame) :
    (applyInPlace hp r1 f).frames.length = hp.frames.length := by
  unfold applyInPlace Heap.write
  exact List.length_set hp.frames r1 _

theorem alloc_read_old (hp : Heap) (df : DataFrame) {r2 : Nat}
    (h2 : r2 < hp.frames.length) : (hp.alloc df).1.read r2 = hp.read r2 := by
  unfold Heap.alloc Heap.read
  rw [List.getD_eq_getElem?_getD, List.getD_eq_getElem?_getD,
    List.getElem?_append_left h2]

theorem alloc_read_new (hp : Heap) (df : DataFrame) :
    (hp.alloc df).1.read (hp.alloc df).2 = df := by
  unfold Heap.alloc Heap.read
  rw [List.getD_eq_getElem?_getD, List.getElem?_append]
  rw [if_neg (by omega)]
  simp

/-- C9: the in-place indicator pipeline never mutates the caller's frame:
the object behind the argument reference is unchanged (all raw bar fields
and any pre-existing columns), the returned reference is a different
object, and the object it points to is the augmented frame computed from
the input. -/
theorem calculate_all_indicators_no_mutation (h : Heap) (r : Nat)
    (hr : r < h.frames.length) :
    (calculate_all_indicators_heap h r).1.read r = h.read r ∧
      (calculate_all_indicators_heap h r).2 ≠ r ∧
      (calculate_all_indicators_heap h r).1.read (calculate_all_indicators_heap h r).2 =
        calculate_all_indicators (h.read r) := by
  have hne : h.frames.length ≠ r := by omega
  have hA2 : (h.alloc ((h.read r).copy)).2 = h.frames.length := rfl
  have hA1len : (h.alloc ((h.read r).copy)).1.frames.length = h.frames.length + 1 := by
    simp [Heap.alloc]
  dsimp only [calculate_all_indicators_heap]
  rw [hA2]
  refine ⟨?_, ?_, ?_⟩
  · rw [applyInPlace_read_ne _ _ hne, applyInPlace_read_ne _ _ hne,
      applyInPlace_read_ne _ _ hne, applyInPlace_read_ne _ _ hne,
      applyInPlace_read_ne _ _ hne]
    exact alloc_read_old h _ hr
  · exact hne
  · have hbase := alloc_read_new h ((h.read r).copy)
    rw [hA2] at hbase
    rw [applyInPlace_read_self _ _
        (by simp only [applyInPlace_length, hA1len]; omega),
      applyInPlace_read_self _ _
        (by simp only [applyInPlace_length, hA1len]; omega),
      applyInPlace_read_self _ _
        (by simp only [applyInPlace_length, hA1len]; omega),
      applyInPlace_read_self _ _
        (by simp only [applyInPlace_length, hA1len]; omega),
      applyInPlace_read_self _ _
        (by simp only [applyInPlace_length, hA1len]; omega),
      hbase]
    rfl

/-- A one-object heap holding a raw two-bar frame. -/
def exHeap : Heap := ⟨[⟨exObvBars, []⟩]⟩

/-- Witness for C9 at a concrete one-object heap. -/
theorem calculate_all_indicators_no_mutation_witness :
    0 < exHeap.frames.length ∧
      (calculate_all_indicators_heap exHeap 0).1.read 0 = exHeap.read 0 ∧
      (calculate_all_indicators_heap exHeap 0).2 ≠ 0 :=
  ⟨by decide, (calculate_all_indicators_no_mutation exHeap 0 (by decide)).1,
    (calculate_all_indicators_no_mutation exHeap 0 (by decide)).2.1⟩

/-- The volume ratio as the claim words it: `volume / volumeMA20`, `0`
when `volumeMA20` is `0` or undefined. -/
def claim_ratio (r : Row) : ℚ :=
  match r.Volume_MA_20 with
  | none => 0
  | some m => if m = 0 then 0 else r.Volume / m

/-- Row well-formedness used by C3: a defined `Volume_MA_20` is
non-negative (true of every engine-produced frame, where it is a rolling
mean of non-negative volumes). -/
def vma_nonneg (r : Row) : Prop := 0 ≤ r.Volume_MA_20.getD 0

instance vma_nonneg_decidable (r : Row) : Decidable (vma_nonneg r) :=
  inferInstanceAs (Decidable (0 ≤ r.Volume_MA_20.getD 0))

theorem ratioOfDay_eq_claim_ratio (r : Row) (h : vma_nonneg r) :
    ratioOfDay r = claim_ratio r := by
  unfold ratioOfDay claim_ratio
  unfold vma_nonneg at h
  cases hv : r.Volume_MA_20 with
  | none => simp [vgt0, hv]
  | some m =>
    rw [hv] at h
    simp only [Option.getD_some] at h
    by_cases hm : m = 0
    · subst hm
      simp [vgt0, hv]
    · have hpos : 0 < m := lt_of_le_of_ne h (Ne.symm hm)
      simp [vgt0, hv, hpos, hm]

/-- C3: on a frame of at least 21 rows (with a positive spike threshold and
non-negative defined volume averages in the examined window), the detector
examines the trailing 5 rows' ratios `volume / volumeMA20` (`0` when the
average is `0` or undefined); if some examined ratio is `≥` the threshold
(inclusive), the result is a spike carrying the maximum ratio seen in the
window; otherwise it is no-signal carrying the latest row's own ratio. -/
theorem volume_spike_characterization (svc : SignalDetectionService)
    (data : List Row) (h21 : 21 ≤ data.length)
    (hth : 0 < svc.volume_spike_threshold)
    (hma : ∀ j, j < 5 → vma_nonneg (ilocNeg data (j + 1))) :
    ((∃ r ∈ (List.range 5).map (fun j => claim_ratio (ilocNeg data (j + 1))),
        svc.volume_spike_threshold ≤ r) →
      (detect_volume_signals svc data).signal = true ∧
        (detect_volume_signals svc data).volume_ratio ∈
          (List.range 5).map (fun j => claim_ratio (ilocNeg data (j + 1))) ∧
        ∀ r ∈ (List.range 5).map (fun j => claim_ratio (ilocNeg data (j + 1))),
          r ≤ (detect_volume_signals svc data).volume_ratio) ∧
    ((∀ r ∈ (List.range 5).map (fun j => claim_ratio (ilocNeg data (j + 1))),
        r < svc.volume_spike_threshold) →
      detect_volume_signals svc data =
        VolumeSignal.no_signal (claim_ratio (ilocNeg data 1))) := by
  have hlb : min 5 data.length = 5 := by omega
  have hcode : detect_volume_signals svc data =
      (if ((List.range 5).map (fun j => ratioOfDay (ilocNeg data (j + 1)))).any
          (fun r => decide (svc.volume_spike_threshold ≤ r)) = true then
        VolumeSignal.volume_spike
          (((List.range 5).map (fun j => ratioOfDay (ilocNeg data (j + 1)))).foldl max 0)
      else VolumeSignal.no_signal (ratioOfDay (ilocNeg data 1))) := by
    unfold detect_volume_signals
    rw [if_neg (by omega : ¬ data.length < 21), hlb]
  have hmap :
      (List.range 5).map (fun j => ratioOfDay (ilocNeg data (j + 1))) =
        (List.range 5).map (fun j => claim_ratio (ilocNeg data (j + 1))) := by
    apply List.map_congr_left
    intro j hj
    exact ratioOfDay_eq_claim_ratio _ (hma j (List.mem_range.mp hj))
  rw [hmap, ratioOfDay_eq_claim_ratio _ (hma 0 (by omega))] at hcode
  constructor
  · rintro ⟨r, hr, hthr⟩
    have hany :
        (((List.range 5).map (fun j => claim_ratio (ilocNeg data (j + 1)))).any
          (fun r => decide (svc.volume_spike_threshold ≤ r))) = true :=
      List.any_eq_true.mpr ⟨r, hr, decide_eq_true hthr⟩
    rw [hcode, if_pos hany]
    refine ⟨rfl, ?_, ?_⟩
    · rcases foldl_max_mem
        ((List.range 5).map (fun j => claim_ratio (ilocNeg data (j + 1)))) 0 with
        h0 | hmem
      · exfalso
        have hle : r ≤ 0 := by
          rw [← h0]
          exact mem_le_foldl_max hr 0
        linarith
      · exact hmem
    · intro x hx
      exact mem_le_foldl_max hx 0
  · intro hall
    have hany :
        (((List.range 5).map (fun j => claim_ratio (ilocNeg data (j + 1)))).any
          (fun r => decide (svc.volume_spike_threshold ≤ r))) = false := by
      rw [List.any_eq_false]
      intro x hx
      simp only [decide_eq_true_eq]
      exact not_le.mpr (hall x hx)
    rw [hcode, hany, if_neg (by decide : ¬ false = true)]

/-- A 21-row frame whose latest row has volume 250 against a volume
average of 100; earlier rows have volume 100. -/
def exVolData : List Row :=
  List.replicate 20 ⟨100, 100, none, none, some 100, none⟩ ++
    [⟨100, 250, none, none, some 100, none⟩]

/-- Witness for C3 at `exVolData`: the latest ratio 2.5 meets the default
threshold 2, so a spike is reported. -/
theorem volume_spike_characterization_witness :
    21 ≤ exVolData.length ∧
      (detect_volume_signals defaultService exVolData).signal = true :=
  ⟨by decide,
    ((volume_spike_characterization defaultService exVolData (by decide)
          (by decide) (by decide)).1
        ⟨claim_ratio (ilocNeg exVolData 1),
          List.mem_map.mpr ⟨0, by decide, rfl⟩, by
            have hrow : ilocNeg exVolData 1 = ⟨100, 250, none, none, some 100, none⟩ := by
              decide
            rw [hrow]
            norm_num [claim_ratio, defaultService]⟩).1⟩

theorem qgtV_eq_true_iff (x : ℚ) (v : Val) :
    qgtV x v = true ↔ ∃ y, v = some y ∧ y < x := by
  cases v <;> simp [qgtV]

theorem qleV_eq_true_iff (x : ℚ) (v : Val) :
    qleV x v = true ↔ ∃ y, v = some y ∧ x ≤ y := by
  cases v <;> simp [qleV]

theorem vgtV_eq_true_iff (a b : Val) :
    vgtV a b = true ↔ ∃ x y, a = some x ∧ b = some y ∧ y < x := by
  cases a <;> cases b <;> simp [vgtV]

theorem check_ma_breakout_fst (svc : SignalDetectionService) (l p : Row) :
    (check_ma_breakout svc l p).1 =
      (qgtV l.Close l.SMA_20 && qleV p.Close p.SMA_20 && vgtV l.SMA_20 l.SMA_50) := by
  simp only [check_ma_breakout]
  by_cases hc : (qgtV l.Close l.SMA_20 && qleV p.Close p.SMA_20 &&
      vgtV l.SMA_20 l.SMA_50) = true
  · rw [if_pos hc, hc]
  · rw [if_neg hc]
    rw [Bool.not_eq_true] at hc
    rw [hc]

theorem check_ma_breakout_snd (svc : SignalDetectionService) (l p : Row)
    (h : (check_ma_breakout svc l p).1 = true) :
    (check_ma_breakout svc l p).2 = strengthFrom l.Close l.SMA_20 := by
  simp only [check_ma_breakout]
  by_cases hc : (qgtV l.Close l.SMA_20 && qleV p.Close p.SMA_20 &&
      vgtV l.SMA_20 l.SMA_50) = true
  · rw [if_pos hc]
  · exfalso
    rw [check_ma_breakout_fst] at h
    exact hc h

theorem check_resistance_fst_false (svc : SignalDetectionService)
    (data : List Row) (h2 : 2 ≤ data.length)
    (hc : qgtV (ilocNeg data 1).Close
        (vmulc (ilocNeg data 1).Resistance (1 - svc.breakout_threshold)) = false) :
    (check_resistance_breakout_with_data svc data).1 = false := by
  simp only [check_resistance_breakout_with_data]
  rw [if_neg (by omega : ¬ data.length < 2), hc,
    if_neg (by decide : ¬ false = true)]

/-- The claim's firing condition for the moving-average breakout, in the
claim's own terms: the latest close is above the latest `SMA_20`, the
previous close was at or below the previous `SMA_20`, and the latest
`SMA_20` is above the latest `SMA_50`. -/
def ma_breakout_conditions (data : List Row) : Prop :=
  (∃ s, (ilocNeg data 1).SMA_20 = some s ∧ s < (ilocNeg data 1).Close) ∧
    (∃ p, (ilocNeg data 2).SMA_20 = some p ∧ (ilocNeg data 2).Close ≤ p) ∧
    (∃ s t, (ilocNeg data 1).SMA_20 = some s ∧
      (ilocNeg data 1).SMA_50 = some t ∧ t < s)

/-- C4: on a frame of at least 21 rows on which the resistance-breakout
check does not fire, the detector reports an MA breakout exactly when the
latest/previous-row cross-and-uptrend conditions hold (in particular, a
cross with `sma20 < sma50` never signals), carrying strength
`max(0, (latestClose − latestSma20) / latestSma20)`; otherwise the
breakout result is `NoSignal` (strength 0). -/
theorem ma_breakout_characterization (svc : SignalDetectionService)
    (data : List Row) (h21 : 21 ≤ data.length)
    (hrb : (check_resistance_breakout_with_data svc data).1 = false) :
    (((detect_all_signals svc data).breakout.signal_type =
        some SignalType.MA_BREAKOUT) ↔ ma_breakout_conditions data) ∧
      (∀ s, (ilocNeg data 1).SMA_20 = some s → ma_breakout_conditions data →
        (detect_all_signals svc data).breakout =
          BreakoutSignal.ma_breakout
            (max 0 (((ilocNeg data 1).Close - s) / s))) ∧
      (¬ ma_breakout_conditions data →
        (detect_all_signals svc data).breakout = BreakoutSignal.no_signal) := by
  have hbool : (check_ma_breakout svc (ilocNeg data 1) (ilocNeg data 2)).1 = true ↔
      ma_breakout_conditions data := by
    rw [check_ma_breakout_fst]
    unfold ma_breakout_conditions
    simp [Bool.and_eq_true, qgtV_eq_true_iff, qleV_eq_true_iff, vgtV_eq_true_iff,
      and_assoc]
  have hD : (detect_all_signals svc data).breakout =
      (if (check_ma_breakout svc (ilocNeg data 1) (ilocNeg data 2)).1 = true then
        BreakoutSignal.ma_breakout
          (check_ma_breakout svc (ilocNeg data 1) (ilocNeg data 2)).2
      else BreakoutSignal.no_signal) := by
    show detect_breakout_signals svc data = _
    simp only [detect_breakout_signals]
    rw [if_neg (by omega : ¬ data.length < 21), hrb,
      if_neg (by decide : ¬ false = true)]
  refine ⟨?_, ?_, ?_⟩
  · rw [hD]
    by_cases hc : (check_ma_breakout svc (ilocNeg data 1) (ilocNeg data 2)).1 = true
    · rw [if_pos hc]
      exact Iff.intro (fun _ => hbool.mp hc) (fun _ => rfl)
    · rw [if_neg hc]
      apply iff_of_false
      · intro hx
        exact Option.noConfusion hx
      · intro hconds
        exact hc (hbool.mpr hconds)
  · intro s hs hconds
    have hc := hbool.mpr hconds
    rw [hD, if_pos hc, check_ma_breakout_snd svc _ _ hc]
    unfold strengthFrom
    rw [hs]
  · intro hnc
    have hc : ¬ (check_ma_breakout svc (ilocNeg data 1) (ilocNeg data 2)).1 = true :=
      fun hcc => hnc (hbool.mp hcc)
    rw [hD, if_neg hc]

/-- A 21-row frame staging an MA breakout: the latest close 110 crosses
above its `SMA_20` of 100 (previous close 95 at its `SMA_20` of 95) in an
uptrend (`SMA_50` = 90), while resistance (1000) is far above price. -/
def exMaData : List Row :=
  List.replicate 19 ⟨50, 100, none, none, some 100, some 1000⟩ ++
    [⟨95, 100, some 95, none, some 100, some 1000⟩,
      ⟨110, 100, some 100, some 90, some 100, some 1000⟩]

/-- Witness for C4 at `exMaData`. -/
theorem ma_breakout_characterization_witness :
    (check_resistance_breakout_with_data defaultService exMaData).1 = false ∧
      (detect_all_signals defaultService exMaData).breakout =
        BreakoutSignal.ma_breakout (max 0 ((110 - 100) / 100)) := by
  have hrow1 : ilocNeg exMaData 1 =
      ⟨110, 100, some 100, some 90, some 100, some 1000⟩ := by decide
  have hrow2 : ilocNeg exMaData 2 =
      ⟨95, 100, some 95, none, some 100, some 1000⟩ := by decide
  have hrb : (check_resistance_breakout_with_data defaultService exMaData).1 = false := by
    apply check_resistance_fst_false _ _ (by decide)
    rw [hrow1]
    norm_num [qgtV, vmulc, defaultService]
  refine ⟨hrb, ?_⟩
  have h := ma_breakout_characterization defaultService exMaData (by decide) hrb
  have hconds : ma_breakout_conditions exMaData := by
    unfold ma_breakout_conditions
    rw [hrow1, hrow2]
    exact ⟨⟨100, rfl, by norm_num⟩, ⟨95, rfl, by norm_num⟩,
      ⟨100, 90, rfl, rfl, by norm_num⟩⟩
  have h2 := h.2.1 100 (by rw [hrow1]) hconds
  rw [h2, hrow1]

/-- Condition (1) of the resistance-breakout claim: the latest close
exceeds the latest resistance discounted by the breakout threshold. -/
def resistance_cond1 (svc : SignalDetectionService) (data : List Row) : Prop :=
  qgtV (ilocNeg data 1).Close
    (vmulc (ilocNeg data 1).Resistance (1 - svc.breakout_threshold)) = true

/-- The crossing condition as the code implements it: a cross from below
to above somewhere among the trailing `min(5, n) − 1` rows (rows
`iloc[-1] .. iloc[-4]` when `n ≥ 5`), each compared with its immediate
predecessor. -/
def code_crossing (svc : SignalDetectionService) (data : List Row) : Prop :=
  ∃ i, 1 ≤ i ∧ i ≤ 4 ∧
    qgtV (ilocNeg data i).Close
      (vmulc (ilocNeg data i).Resistance (1 - svc.breakout_threshold)) = true ∧
    qleV (ilocNeg data (i + 1)).Close (ilocNeg data (i + 1)).Resistance = true

/-- Condition (3) of the resistance-breakout claim: some row of the
trailing five has volume above 1.2 times its volume average. -/
def volume_confirmation_cond (_svc : SignalDetectionService) (data : List Row) : Prop :=
  ∃ i, 1 ≤ i ∧ i ≤ 5 ∧
    qgtV (ilocNeg data i).Volume
      (vmulc (ilocNeg data i).Volume_MA_20 (12 / 10)) = true

theorem check_resistance_fst_iff (svc : SignalDetectionService)
    (data : List Row) (h21 : 21 ≤ data.length) :
    (check_resistance_breakout_with_data svc data).1 = true ↔
      (resistance_cond1 svc data ∧ code_crossing svc data ∧
        volume_confirmation_cond svc data) := by
  have hmin : min 5 data.length = 5 := by omega
  simp only [check_resistance_breakout_with_data]
  rw [if_neg (by omega : ¬ data.length < 2), hmin]
  by_cases hc1 : qgtV (ilocNeg data 1).Close
      (vmulc (ilocNeg data 1).Resistance (1 - svc.breakout_threshold)) = true
  · rw [if_pos hc1]
    have hvol : ((List.range 5).any fun j =>
        qgtV (ilocNeg data (j + 1)).Volume
          (vmulc (ilocNeg data (j + 1)).Volume_MA_20 (12 / 10))) = true ↔
          volume_confirmation_cond svc data := by
      rw [any_range_iff]
      unfold volume_confirmation_cond
      constructor
      · rintro ⟨j, hj, hf⟩
        exact ⟨j + 1, by omega, by omega, hf⟩
      · rintro ⟨i, h1i, h5i, hf⟩
        refine ⟨i - 1, by omega, ?_⟩
        have hi : i - 1 + 1 = i := by omega
        rw [hi]
        exact hf
    have hrec : ((List.range (5 - 1)).any fun j =>
        if j + 1 < data.length - 1 then
          qgtV (ilocNeg data (j + 1)).Close
              (vmulc (ilocNeg data (j + 1)).Resistance (1 - svc.breakout_threshold)) &&
            qleV (ilocNeg data (j + 1 + 1)).Close (ilocNeg data (j + 1 + 1)).Resistance
        else false) = true ↔ code_crossing svc data := by
      rw [any_range_iff]
      unfold code_crossing
      constructor
      · rintro ⟨j, hj, hf⟩
        rw [if_pos (by omega : j + 1 < data.length - 1)] at hf
        rw [Bool.and_eq_true] at hf
        rcases hf with ⟨hgt, hle⟩
        exact ⟨j + 1, by omega, by omega, hgt, hle⟩
      · rintro ⟨i, h1i, h4i, hgt, hle⟩
        refine ⟨i - 1, by omega, ?_⟩
        rw [if_pos (by omega : i - 1 + 1 < data.length - 1)]
        have hi : i - 1 + 1 = i := by omega
        rw [hi, Bool.and_eq_true]
        exact ⟨hgt, hle⟩
    by_cases hx : (((List.range (5 - 1)).any fun j =>
        if j + 1 < data.length - 1 then
          qgtV (ilocNeg data (j + 1)).Close
              (vmulc (ilocNeg data (j + 1)).Resistance (1 - svc.breakout_threshold)) &&
            qleV (ilocNeg data (j + 1 + 1)).Close (ilocNeg data (j + 1 + 1)).Resistance
        else false) &&
        ((List.range 5).any fun j =>
          qgtV (ilocNeg data (j + 1)).Volume
            (vmulc (ilocNeg data (j + 1)).Volume_MA_20 (12 / 10)))) = true
    · rw [if_pos hx]
      rw [Bool.and_eq_true] at hx
      rcases hx with ⟨hr, hv⟩
      exact iff_of_true rfl ⟨hc1, hrec.mp hr, hvol.mp hv⟩
    · rw [if_neg hx]
      apply iff_of_false
      · decide
      · rintro ⟨_, hB, hC⟩
        refine hx ?_
        rw [Bool.and_eq_true]
        exact ⟨hrec.mpr hB, hvol.mpr hC⟩
  · rw [if_neg hc1]
    apply iff_of_false
    · decide
    · rintro ⟨hA, _, _⟩
      exact hc1 hA

theorem check_resistance_snd (svc : SignalDetectionService) (data : List Row)
    (h : (check_resistance_breakout_with_data svc data).1 = true) :
    (check_resistance_breakout_with_data svc data).2 =
      strengthFrom (ilocNeg data 1).Close (ilocNeg data 1).Resistance := by
  simp only [check_resistance_breakout_with_data] at h ⊢
  by_cases h2 : data.length < 2
  · rw [if_pos h2] at h
    exact absurd h (by decide)
  · rw [if_neg h2] at h ⊢
    by_cases hc1 : qgtV (ilocNeg data 1).Close
        (vmulc (ilocNeg data 1).Resistance (1 - svc.breakout_threshold)) = true
    · rw [if_pos hc1] at h ⊢
      by_cases hx : (((List.range (min 5 data.length - 1)).any fun j =>
          if j + 1 < data.length - 1 then
            qgtV (ilocNeg data (j + 1)).Close
                (vmulc (ilocNeg data (j + 1)).Resistance (1 - svc.breakout_threshold)) &&
              qleV (ilocNeg data (j + 1 + 1)).Close (ilocNeg data (j + 1 + 1)).Resistance
          else false) &&
          ((List.range (min 5 data.length)).any fun j =>
            qgtV (ilocNeg data (j + 1)).Volume
              (vmulc (ilocNeg data (j + 1)).Volume_MA_20 (12 / 10)))) = true
      · rw [if_pos hx]
      · rw [if_neg hx] at h
        exact absurd h (by decide)
    · rw [if_neg hc1] at h
      exact absurd h (by decide)

/-- C1 as amended: with at least 21 rows, `detect_all_signals` reports a
resistance breakout (checked before the MA rule) exactly when the latest
close clears the discounted latest resistance, a below-to-above cross
exists among the trailing FOUR rows (`i = 1 .. min(5,n)−1`, not five), and
some row of the trailing five has volume above 1.2×its volume average;
when it fires, the strength is `max(0, (latestClose − latestResistance) /
latestResistance)`. -/
theorem resistance_breakout_characterization (svc : SignalDetectionService)
    (data : List Row) (h21 : 21 ≤ data.length) :
    (((detect_all_signals svc data).breakout.signal_type =
        some SignalType.RESISTANCE_BREAKOUT) ↔
      (resistance_cond1 svc data ∧ code_crossing svc data ∧
        volume_confirmation_cond svc data)) ∧
      (resistance_cond1 svc data → code_crossing svc data →
        volume_confirmation_cond svc data →
        ∃ r, (ilocNeg data 1).Resistance = some r ∧
          (detect_all_signals svc data).breakout =
            BreakoutSignal.resistance_breakout
              (max 0 (((ilocNeg data 1).Close - r) / r))) := by
  have hiff := check_resistance_fst_iff svc data h21
  by_cases hrb : (check_resistance_breakout_with_data svc data).1 = true
  · have hform : (detect_all_signals svc data).breakout =
        BreakoutSignal.resistance_breakout
          (check_resistance_breakout_with_data svc data).2 := by
      show detect_breakout_signals svc data = _
      simp only [detect_breakout_signals]
      rw [if_neg (by omega : ¬ data.length < 21), hrb, if_pos rfl]
    constructor
    · rw [hform]
      exact iff_of_true rfl (hiff.mp hrb)
    · intro hA _ _
      have hr : ∃ r, (ilocNeg data 1).Resistance = some r := by
        unfold resistance_cond1 at hA
        cases hres : (ilocNeg data 1).Resistance with
        | none =>
          rw [hres] at hA
          simp [vmulc, qgtV] at hA
        | some r => exact ⟨r, rfl⟩
      rcases hr with ⟨r, hres⟩
      refine ⟨r, hres, ?_⟩
      rw [hform, check_resistance_snd svc data hrb]
      unfold strengthFrom
      rw [hres]
  · have hrbF : (check_resistance_breakout_with_data svc data).1 = false := by
      rw [← Bool.not_eq_true]
      exact hrb
    have hform : (detect_all_signals svc data).breakout =
        (if (check_ma_breakout svc (ilocNeg data 1) (ilocNeg data 2)).1 = true then
          BreakoutSignal.ma_breakout
            (check_ma_breakout svc (ilocNeg data 1) (ilocNeg data 2)).2
        else BreakoutSignal.no_signal) := by
      show detect_breakout_signals svc data = _
      simp only [detect_breakout_signals]
      rw [if_neg (by omega : ¬ data.length < 21), hrbF,
        if_neg (by decide : ¬ false = true)]
    constructor
    · rw [hform]
      apply iff_of_false
      · intro habs
        by_cases hm : (check_ma_breakout svc (ilocNeg data 1) (ilocNeg data 2)).1 = true
        · rw [if_pos hm] at habs
          simp [BreakoutSignal.ma_breakout] at habs
        · rw [if_neg hm] at habs
          exact Option.noConfusion habs
      · rintro ⟨hA, hB, hC⟩
        exact hrb (hiff.mpr ⟨hA, hB, hC⟩)
    · intro hA hB hC
      exact absurd (hiff.mpr ⟨hA, hB, hC⟩) hrb

/-- Modelled from the claim's words, for comparison with the code: the
three resistance-breakout conditions with the below-to-above cross sought
anywhere within the trailing window of up to FIVE bars. -/
def claim_resistance_conditions (svc : SignalDetectionService)
    (data : List Row) : Prop :=
  resistance_cond1 svc data ∧
    (∃ i, 1 ≤ i ∧ i ≤ 5 ∧
      qgtV (ilocNeg data i).Close
        (vmulc (ilocNeg data i).Resistance (1 - svc.breakout_threshold)) = true ∧
      qleV (ilocNeg data (i + 1)).Close (ilocNeg data (i + 1)).Resistance = true) ∧
    volume_confirmation_cond svc data

/-- A 21-row frame whose only below-to-above resistance cross sits exactly
five rows back (`iloc[-5]` vs `iloc[-6]`): closes 50 up to `iloc[-6]`,
110 from `iloc[-5]` on, constant resistance 100, and a 1.5× volume spike
on the latest row. -/
def exC1Data : List Row :=
  List.replicate 16 ⟨50, 100, none, none, some 100, some 100⟩ ++
    [⟨110, 100, none, none, some 100, some 100⟩,
      ⟨110, 100, none, none, some 100, some 100⟩,
      ⟨110, 100, none, none, some 100, some 100⟩,
      ⟨110, 100, none, none, some 100, some 100⟩,
      ⟨110, 150, none, none, some 100, some 100⟩]

/-- Counterexample to C1 as stated: on `exC1Data` all three conditions of
the claim hold (the cross sits at the fifth trailing row), yet the
detector reports no breakout at all, because the code's crossing scan
`range(1, min(5, len(data)))` only covers the trailing four rows. -/
theorem resistance_breakout_window_counterexample :
    claim_resistance_conditions defaultService exC1Data ∧
      (detect_all_signals defaultService exC1Data).breakout =
        BreakoutSignal.no_signal := by
  have hrow1 : ilocNeg exC1Data 1 = ⟨110, 150, none, none, some 100, some 100⟩ := by
    decide
  have hrow5 : ilocNeg exC1Data 5 = ⟨110, 100, none, none, some 100, some 100⟩ := by
    decide
  have hrow6 : ilocNeg exC1Data 6 = ⟨50, 100, none, none, some 100, some 100⟩ := by
    decide
  have hprev : ∀ i, 1 ≤ i → i ≤ 4 →
      ilocNeg exC1Data (i + 1) = ⟨110, 100, none, none, some 100, some 100⟩ := by
    intro i h1 h4
    interval_cases i <;> decide
  constructor
  · refine ⟨?_, ⟨5, by omega, by omega, ?_, ?_⟩, ⟨1, by omega, by omega, ?_⟩⟩
    · unfold resistance_cond1
      rw [hrow1]
      norm_num [qgtV, vmulc, defaultService]
    · rw [hrow5]
      norm_num [qgtV, vmulc, defaultService]
    · rw [hrow6]
      norm_num [qleV]
    · rw [hrow1]
      norm_num [qgtV, vmulc, defaultService]
  · have hnocross : ¬ code_crossing defaultService exC1Data := by
      rintro ⟨i, h1, h4, _, hle⟩
      rw [hprev i h1 h4] at hle
      norm_num [qleV] at hle
    have hrbF : (check_resistance_breakout_with_data defaultService exC1Data).1 =
        false := by
      rw [← Bool.not_eq_true, check_resistance_fst_iff defaultService exC1Data (by decide)]
      rintro ⟨_, hB, _⟩
      exact hnocross hB
    have hma : (check_ma_breakout defaultService (ilocNeg exC1Data 1)
        (ilocNeg exC1Data 2)).1 = false := by
      rw [check_ma_breakout_fst, hrow1]
      simp [qgtV]
    show detect_breakout_signals defaultService exC1Data = BreakoutSignal.no_signal
    simp only [detect_breakout_signals]
    rw [if_neg (by decide : ¬ exC1Data.length < 21), hrbF,
      if_neg (by decide : ¬ false = true), hma,
      if_neg (by decide : ¬ false = true)]

/-- A 21-row frame where the cross happens on the latest row itself:
closes 50 throughout, then 110 with a 1.5× volume spike on the latest
row, constant resistance 100. -/
def exRBData : List Row :=
  List.replicate 20 ⟨50, 100, none, none, some 100, some 100⟩ ++
    [⟨110, 150, none, none, some 100, some 100⟩]

/-- Witness for the amended C1 at `exRBData`. -/
theorem resistance_breakout_characterization_witness :
    21 ≤ exRBData.length ∧
      ∃ r, (ilocNeg exRBData 1).Resistance = some r ∧
        (detect_all_signals defaultService exRBData).breakout =
          BreakoutSignal.resistance_breakout
            (max 0 (((ilocNeg exRBData 1).Close - r) / r)) := by
  have hrow1 : ilocNeg exRBData 1 = ⟨110, 150, none, none, some 100, some 100⟩ := by
    decide
  have hrow2 : ilocNeg exRBData 2 = ⟨50, 100, none, none, some 100, some 100⟩ := by
    decide
  refine ⟨by decide,
    (resistance_breakout_characterization defaultService exRBData (by decide)).2
      ?_ ?_ ?_⟩
  · unfold resistance_cond1
    rw [hrow1]
    norm_num [qgtV, vmulc, defaultService]
  · refine ⟨1, by omega, by omega, ?_, ?_⟩
    · rw [hrow1]
      norm_num [qgtV, vmulc, defaultService]
    · rw [hrow2]
      norm_num [qleV]
  · refine ⟨1, by omega, by omega, ?_⟩
    rw [hrow1]
    norm_num [qgtV, vmulc, defaultService]

theorem calc_colLookup_SMA_50 (bars : List Bar) :
    colLookup (calculate_all_indicators ⟨bars, []⟩) ColName.SMA_50 =
      sma_50_col bars := rfl

theorem calc_bars (bars : List Bar) :
    (calculate_all_indicators ⟨bars, []⟩).bars = bars := rfl

/-- C10: for a frame built by the indicator engine from fewer than 50
bars, `SMA_50` is undefined at the latest row, so the MA-breakout uptrend
comparison is false and the detector can only return a resistance
breakout or no signal — never an MA breakout. -/
theorem short_series_no_ma_breakout (svc : SignalDetectionService)
    (bars : List Bar) (h1 : 1 ≤ bars.length) (h50 : bars.length < 50) :
    ((frame_rows (calculate_all_indicators ⟨bars, []⟩)).getD
        (bars.length - 1) dRow).SMA_50 = none ∧
      ((detect_all_signals svc
            (frame_rows (calculate_all_indicators ⟨bars, []⟩))).breakout =
          BreakoutSignal.no_signal ∨
        ∃ s, (detect_all_signals svc
            (frame_rows (calculate_all_indicators ⟨bars, []⟩))).breakout =
          BreakoutSignal.resistance_breakout s) := by
  have hlen : (frame_rows (calculate_all_indicators ⟨bars, []⟩)).length =
      bars.length := by
    simp [frame_rows, calc_bars]
  have hsma : ((frame_rows (calculate_all_indicators ⟨bars, []⟩)).getD
      (bars.length - 1) dRow).SMA_50 = none := by
    unfold frame_rows
    rw [getD_map_range _ _
      (show bars.length - 1 < (calculate_all_indicators ⟨bars, []⟩).bars.length by
        rw [calc_bars]
        omega)]
    show (colLookup (calculate_all_indicators ⟨bars, []⟩) ColName.SMA_50).getD
        (bars.length - 1) none = none
    rw [calc_colLookup_SMA_50]
    unfold sma_50_col
    rw [getD_map_range _ _ (by omega : bars.length - 1 < bars.length)]
    unfold smaAt
    rw [if_neg (by omega : ¬ 50 ≤ bars.length - 1 + 1)]
  refine ⟨hsma, ?_⟩
  by_cases h21 : (frame_rows (calculate_all_indicators ⟨bars, []⟩)).length < 21
  · left
    show detect_breakout_signals svc _ = _
    simp only [detect_breakout_signals]
    rw [if_pos h21]
  · by_cases hrb : (check_resistance_breakout_with_data svc
        (frame_rows (calculate_all_indicators ⟨bars, []⟩))).1 = true
    · right
      refine ⟨(check_resistance_breakout_with_data svc
        (frame_rows (calculate_all_indicators ⟨bars, []⟩))).2, ?_⟩
      show detect_breakout_signals svc _ = _
      simp only [detect_breakout_signals]
      rw [if_neg h21, hrb, if_pos rfl]
    · left
      have hrbF : (check_resistance_breakout_with_data svc
          (frame_rows (calculate_all_indicators ⟨bars, []⟩))).1 = false := by
        rw [← Bool.not_eq_true]
        exact hrb
      have hma : (check_ma_breakout svc
          (ilocNeg (frame_rows (calculate_all_indicators ⟨bars, []⟩)) 1)
          (ilocNeg (frame_rows (calculate_all_indicators ⟨bars, []⟩)) 2)).1 =
          false := by
        rw [check_ma_breakout_fst]
        have h5 : (ilocNeg (frame_rows (calculate_all_indicators ⟨bars, []⟩)) 1).SMA_50 =
            none := by
          unfold ilocNeg
          rw [hlen]
          exact hsma
        rw [h5]
        cases (ilocNeg (frame_rows (calculate_all_indicators ⟨bars, []⟩)) 1).SMA_20 <;>
          simp [vgtV]
      show detect_breakout_signals svc _ = _
      simp only [detect_breakout_signals]
      rw [if_neg h21, hrbF, if_neg (by decide : ¬ false = true), hma,
        if_neg (by decide : ¬ false = true)]

/-- A single raw bar. -/
def exShortBars : List Bar := [⟨1, 1, 1, 1, 1⟩]

/-- Witness for C10 at a one-bar series. -/
theorem short_series_no_ma_breakout_witness :
    ((frame_rows (calculate_all_indicators ⟨exShortBars, []⟩)).getD
        (exShortBars.length - 1) dRow).SMA_50 = none ∧
      ((detect_all_signals defaultService
            (frame_rows (calculate_all_indicators ⟨exShortBars, []⟩))).breakout =
          BreakoutSignal.no_signal ∨
        ∃ s, (detect_all_signals defaultService
            (frame_rows (calculate_all_indicators ⟨exShortBars, []⟩))).breakout =
          BreakoutSignal.resistance_breakout s) :=
  short_series_no_ma_breakout defaultService exShortBars (by decide) (by decide)

end StockScreener
